import Mathlib

/-!
Verification of the scamper-pywarts Warts binary decoder.

The development shallowly embeds the decoder's source modules:

* `warts/parsing.py` — primitive decoders over a byte stream.  The Python
  functions take a file-like object and return `(value, bytes_read)`; we
  model the stream as the list of remaining bytes and each function
  returns `Except ParseErr (value × bytes_read × remaining)`.
* `warts/base.py` — the record dispatcher `WartsRecord.parse` and the
  option-table decoders.  `base.py` is written against a `Parser` class
  that is absent from the repository snapshot (only its callers are
  present); its methods are modelled from the spec where noted.
* `warts/traceroute.py`, `warts/list.py`, `warts/cycle.py` — record
  definitions composing the primitives.

Bytes are `Nat` values (callers supply values < 256; the format
combinators use them as given).  Python attribute assignment
(`setattr`) is modelled by consing onto an association list looked up
front-first, which matches Python's overwrite semantics for `getattr`.
-/

/-- Exception hierarchy of `warts/errors.py`: `ParseError` with subclasses
`InvalidFormat`, `EmptyRead`, `IncompleteRead`.  Messages are carried to
distinguish the raise sites. -/
inductive ParseErr where
  | parseError (msg : String)
  | invalidFormat (msg : String)
  | emptyRead
  | incompleteRead
deriving DecidableEq, Repr

/-- One ICMP extension entry (`IcmpExtension` namedtuple in `parsing.py`):
`class_`, `type_` and the undecoded data bytes. -/
structure IcmpExtension where
  class_ : Nat
  type_ : Nat
  data : List Nat
deriving DecidableEq, Repr

/-- Python values produced by the primitive decoders and stored as record
attributes.  `none` is Python's `None`; strings are kept as their byte
sequences (UTF-8 decoding is modelled as the identity on bytes). -/
inductive Value where
  | none
  | nat (n : Nat)
  | bytes (bs : List Nat)
  | str (bs : List Nat)
  | timeval (sec usec : Nat)
  | icmpexts (l : List IcmpExtension)
deriving DecidableEq, Repr

/-- The attribute dictionary of a Python object under construction. -/
abbrev Attrs := List (String × Value)

/-- `setattr(obj, name, v)`: later bindings shadow earlier ones under
front-first `List.lookup`, matching Python's overwrite semantics. -/
def set_attr (attrs : Attrs) (name : String) (v : Value) : Attrs :=
  (name, v) :: attrs

/-- Big-endian 16-bit value from two bytes (`struct.unpack('>H')`). -/
def be16 (a b : Nat) : Nat := a * 256 + b

/-- Big-endian 32-bit value from four bytes (`struct.unpack('>I')`). -/
def be32 (a b c d : Nat) : Nat := ((a * 256 + b) * 256 + c) * 256 + d

/-- `read_from_format` for a fixed number of raw bytes
(`struct.unpack('>Ns')`): `fd.read(size)` returns at most the remaining
bytes, and a short read raises `ParseError("Not enough data in file")`. -/
def read_bytes_fd (n : Nat) (s : List Nat) :
    Except ParseErr (List Nat × Nat × List Nat) :=
  if n ≤ s.length then .ok (s.take n, n, s.drop n)
  else .error (.parseError "Not enough data in file")

/-- `read_uint8` (`parsing.py`): one byte. -/
def read_uint8 (s : List Nat) : Except ParseErr (Nat × Nat × List Nat) :=
  match s with
  | b :: rest => .ok (b, 1, rest)
  | [] => .error (.parseError "Not enough data in file")

/-- `read_uint16` (`parsing.py`): two bytes, big-endian. -/
def read_uint16 (s : List Nat) : Except ParseErr (Nat × Nat × List Nat) :=
  match s with
  | a :: b :: rest => .ok (be16 a b, 2, rest)
  | _ => .error (.parseError "Not enough data in file")

/-- `read_uint32` (`parsing.py`): four bytes, big-endian. -/
def read_uint32 (s : List Nat) : Except ParseErr (Nat × Nat × List Nat) :=
  match s with
  | a :: b :: c :: d :: rest => .ok (be32 a b c d, 4, rest)
  | _ => .error (.parseError "Not enough data in file")

/-- `read_timeval` (`parsing.py`): two big-endian `uint32` (seconds,
microseconds); the pair is kept unevaluated instead of Python's float
`sec + usec / 1000000`. -/
def read_timeval (s : List Nat) : Except ParseErr (Value × Nat × List Nat) :=
  match s with
  | a :: b :: c :: d :: e :: f :: g :: h :: rest =>
      .ok (.timeval (be32 a b c d) (be32 e f g h), 8, rest)
  | _ => .error (.parseError "Not enough data in file")

/-- `read_address` (`parsing.py`).  A length byte; if positive, a type
byte (read but unused — the source carries `TODO: decode address`) and
`length` raw bytes returned as-is; if zero, a `uint32` reference id is
read, a warning is emitted ("Referenced address are not supported yet")
and the empty bytes object is returned. -/
def read_address (s : List Nat) : Except ParseErr (Value × Nat × List Nat) := do
  let (length, size1, s1) ← read_uint8 s
  if length > 0 then do
    let (type_, size2, s2) ← read_uint8 s1
    let (addr, size3, s3) ← read_bytes_fd length s2
    let _ := type_
    .ok (.bytes addr, size1 + size2 + size3, s3)
  else do
    let (id, size2, s2) ← read_uint32 s1
    let _ := id
    .ok (.bytes [], size1 + size2, s2)

/-- `read_string` (`parsing.py`): `fd.peek(4096)` yields at most the next
4096 bytes; `ctypes.string_at` takes the bytes before the first zero byte
of that buffer (or the whole buffer when it has none); the stream is then
advanced by `len(s) + 1` and `(decoded string, len(s) + 1)` returned. -/
def read_string (s : List Nat) : Except ParseErr (Value × Nat × List Nat) :=
  let buf := s.take 4096
  let sb := buf.takeWhile (fun b => b ≠ 0)
  .ok (.str sb, sb.length + 1, s.drop (sb.length + 1))

/-- The entry-reading loop of `read_icmpext` (`parsing.py`):
`while bytes_read < total_length`, read `{ext_length: u16, ext_class: u8,
ext_type: u8}` then `ext_length` data bytes, appending an `IcmpExtension`
per iteration. -/
def icmpext_loop (total_length bytes_read : Nat) (s : List Nat) :
    Except ParseErr (List IcmpExtension × Nat × List Nat) :=
  if _h : bytes_read < total_length then
    match read_uint16 s with
    | .error e => .error e
    | .ok (ext_length, hsz, s1) =>
      match s1 with
      | ext_class :: ext_type :: s2 =>
        match read_bytes_fd ext_length s2 with
        | .error e => .error e
        | .ok (ext_data, dsz, s3) =>
          match icmpext_loop total_length (bytes_read + (hsz + 2) + dsz) s3 with
          | .error e => .error e
          | .ok (exts, br, s4) =>
              .ok (⟨ext_class, ext_type, ext_data⟩ :: exts, br, s4)
      | _ => .error (.parseError "Not enough data in file")
  else .ok ([], bytes_read, s)
termination_by total_length - bytes_read
decreasing_by omega

/-- `read_icmpext` (`parsing.py`): a `uint16` total-byte budget, the entry
loop, then `InvalidFormat("Inconsistent ICMP extension length")` when the
entries overran the budget; on success returns the entries and
`length_size + bytes_read`. -/
def read_icmpext (s : List Nat) : Except ParseErr (Value × Nat × List Nat) := do
  let (total_length, length_size, s1) ← read_uint16 s
  let (extensions, bytes_read, s2) ← icmpext_loop total_length 0 s1
  if bytes_read > total_length then
    .error (.invalidFormat "Inconsistent ICMP extension length")
  else
    .ok (.icmpexts extensions, length_size + bytes_read, s2)

/-- `Bits.mark`: set one bit of a bitmask represented as a `Nat`. -/
def markBit (f pos : Nat) : Nat :=
  if f.testBit pos then f else f + 2 ^ pos

/-- The inner bit loop of `read_flags`: `for bit_pos in range(nb_bits):
if byte & (1 << bit_pos) != 0: flags.mark(offset + bit_pos)`. -/
def mark_byte (f byte off nb : Nat) : Nat :=
  (List.range nb).foldl
    (fun acc bit_pos =>
      if byte &&& (1 <<< bit_pos) ≠ 0 then markBit acc (off + bit_pos) else acc)
    f

/-- The outer byte loop of `read_flags`: each byte contributes
`nb_bits = 8` when it is the last of `flag_bytes`, else `7`, at the
running offset. -/
def assemble_flags_go (f off : Nat) : List Nat → Nat
  | [] => f
  | [b] => mark_byte f b off 8
  | b :: rest => assemble_flags_go (mark_byte f b off 7) (off + 7) rest

/-- The byte-collecting loop of `read_flags`: read bytes one at a time
until a byte with high bit clear (`flag_byte & 0x80 == 0`), which is
included. -/
def read_flag_bytes : List Nat → Except ParseErr (List Nat × Nat × List Nat)
  | [] => .error (.parseError "Not enough data in file")
  | b :: rest =>
    if b &&& 0x80 = 0 then .ok ([b], 1, rest)
    else
      match read_flag_bytes rest with
      | .error e => .error e
      | .ok (bs, n, r) => .ok (b :: bs, n + 1, r)

/-- `read_flags` (`parsing.py`): collect the flag bytes, then assemble the
bitmask by marking bits. -/
def read_flags (s : List Nat) : Except ParseErr (Nat × Nat × List Nat) :=
  match read_flag_bytes s with
  | .error e => .error e
  | .ok (flag_bytes, total_read, rest) =>
      .ok (assemble_flags_go 0 0 flag_bytes, total_read, rest)

/-- Closed-form contribution function following the spec's words: every
non-final flag byte contributes its low 7 bits at offsets 0, 7, 14, …,
and the final byte contributes all 8 of its bits at its offset.  Compared
against the assembly loop embedded from the source. -/
def flags_spec : List Nat → Nat
  | [] => 0
  | [b] => b % 256
  | b :: rest => b % 128 + 128 * flags_spec rest

-- Value-typed wrappers used as option parse functions.

/-- `read_uint8` as an option parse function. -/
def read_uint8V (s : List Nat) : Except ParseErr (Value × Nat × List Nat) := do
  let (v, n, r) ← read_uint8 s
  .ok (.nat v, n, r)

/-- `read_uint16` as an option parse function. -/
def read_uint16V (s : List Nat) : Except ParseErr (Value × Nat × List Nat) := do
  let (v, n, r) ← read_uint16 s
  .ok (.nat v, n, r)

/-- `read_uint32` as an option parse function. -/
def read_uint32V (s : List Nat) : Except ParseErr (Value × Nat × List Nat) := do
  let (v, n, r) ← read_uint32 s
  .ok (.nat v, n, r)

/-- `read_timeval` already returns a `Value`. -/
def read_timevalV : List Nat → Except ParseErr (Value × Nat × List Nat) :=
  read_timeval

/-- `read_string` already returns a `Value`. -/
def read_stringV : List Nat → Except ParseErr (Value × Nat × List Nat) :=
  read_string

/-- The `Option` container of `parsing.py` (file-descriptor-style parse
functions returning `(value, bytes_read)`): an attribute name, a parse
function, and an `ignore` marker for deprecated fields whose decoded
value is thrown away. -/
structure OptionF where
  attr_name : String
  parse_function : List Nat → Except ParseErr (Value × Nat × List Nat)
  ignore : Bool := false

/-- The option loop of `OptionParser.parse_options` (`parsing.py`): for
each declared option at bit `position`, skip it when its presence bit is
clear; otherwise run its parse function, accumulate the bytes read, and
`setattr` the value unless the option is ignored. -/
def options_loop (opts : List OptionF) (position flags : Nat) (attrs : Attrs)
    (total_bytes_read : Nat) (s : List Nat) :
    Except ParseErr (Attrs × Nat × List Nat) :=
  match opts with
  | [] => .ok (attrs, total_bytes_read, s)
  | option :: rest =>
    if ¬ flags.testBit position then
      options_loop rest (position + 1) flags attrs total_bytes_read s
    else
      match option.parse_function s with
      | .error e => .error e
      | .ok (value, bytes_read, s') =>
        options_loop rest (position + 1) flags
          (if option.ignore then attrs else set_attr attrs option.attr_name value)
          (total_bytes_read + bytes_read) s'

/-- `OptionParser.parse_options` (`parsing.py` lines 141–182): read the
flag bitmask; if no bit is set, return at once.  Otherwise read the
`uint16` options length, run the option loop, raise
`InvalidFormat("Inconsistent option length")` when more bytes were
consumed than declared, skip the remainder (`fd.read`) when fewer were,
and report `flags_size + options_length_size + options_length` bytes. -/
def parse_options_fd (attrs : Attrs) (s : List Nat) (opts : List OptionF) :
    Except ParseErr (Attrs × Nat × List Nat) := do
  let (flags, flags_size, s1) ← read_flags s
  if flags = 0 then
    .ok (attrs, flags_size, s1)
  else do
    let (options_length, options_length_size, s2) ← read_uint16 s1
    let (attrs', total_bytes_read, s3) ← options_loop opts 0 flags attrs 0 s2
    if total_bytes_read > options_length then
      .error (.invalidFormat "Inconsistent option length")
    else
      .ok (attrs', flags_size + options_length_size + options_length,
           s3.drop (options_length - total_bytes_read))

/-- `Traceroute.OPTIONS` (`traceroute.py`), bits 0–28. -/
def Traceroute_OPTIONS : List OptionF := [
  ⟨"list_id",         read_uint32V, false⟩,
  ⟨"cycle_id",        read_uint32V, false⟩,
  ⟨"src_address_id",  read_uint32V, true⟩,
  ⟨"dst_address_id",  read_uint32V, true⟩,
  ⟨"start_time",      read_timevalV, false⟩,
  ⟨"stop_reason",     read_uint8V, false⟩,
  ⟨"stop_data",       read_uint8V, false⟩,
  ⟨"trace_flags",     read_uint8V, false⟩,
  ⟨"attempts",        read_uint8V, false⟩,
  ⟨"hoplimit",        read_uint8V, false⟩,
  ⟨"trace_type",      read_uint8V, false⟩,
  ⟨"probe_size",      read_uint16V, false⟩,
  ⟨"src_port",        read_uint16V, false⟩,
  ⟨"dst_port",        read_uint16V, false⟩,
  ⟨"first_ttl",       read_uint8V, false⟩,
  ⟨"ip_tos",          read_uint8V, false⟩,
  ⟨"probe_timeout",   read_uint8V, false⟩,
  ⟨"nb_loops",        read_uint8V, false⟩,
  ⟨"nb_hops",         read_uint16V, false⟩,
  ⟨"gap_limit",       read_uint8V, false⟩,
  ⟨"gap_action",      read_uint8V, false⟩,
  ⟨"loop_action",     read_uint8V, false⟩,
  ⟨"nb_probes_sent",  read_uint16V, false⟩,
  ⟨"probes_interval", read_uint8V, false⟩,
  ⟨"confidence",      read_uint8V, false⟩,
  ⟨"src_address",     read_address, false⟩,
  ⟨"dst_address",     read_address, false⟩,
  ⟨"user_id",         read_uint32V, false⟩,
  ⟨"ip_offset",       read_uint16V, false⟩]

/-- `TracerouteHop.OPTIONS` (`traceroute.py`), bits 0–18. -/
def TracerouteHop_OPTIONS : List OptionF := [
  ⟨"address_id",          read_uint32V, true⟩,
  ⟨"probe_ttl",           read_uint8V, false⟩,
  ⟨"reply_ttl",           read_uint8V, false⟩,
  ⟨"hop_flags",           read_uint8V, false⟩,
  ⟨"probe_id",            read_uint8V, false⟩,
  ⟨"rtt",                 read_uint32V, false⟩,
  ⟨"reply_icmp_typecode", read_uint16V, false⟩,
  ⟨"probe_size",          read_uint16V, false⟩,
  ⟨"reply_size",          read_uint16V, false⟩,
  ⟨"reply_ip_id",         read_uint16V, false⟩,
  ⟨"tos",                 read_uint8V, false⟩,
  ⟨"nexthop_mtu",         read_uint16V, false⟩,
  ⟨"quoted_ip_length",    read_uint16V, false⟩,
  ⟨"quoted_ttl",          read_uint8V, false⟩,
  ⟨"reply_tcp_flags",     read_uint8V, false⟩,
  ⟨"quoted_tos",          read_uint8V, false⟩,
  ⟨"icmpext",             read_icmpext, false⟩,
  ⟨"address",             read_address, false⟩,
  ⟨"transmit_time",       read_timevalV, false⟩]

/-- A Warts record object under construction: its header fields, its
attribute dictionary, the raw payload of an unknown record, and the hop
list of a traceroute (each hop is its own attribute dictionary). -/
structure RawRecord where
  type : Nat := 0
  length : Nat := 0
  attrs : Attrs := []
  data : List Nat := []
  hops : List Attrs := []
deriving DecidableEq, Repr

/-- The hop loop of `Traceroute.parse` (`traceroute.py`): decode
`hop_count` `TracerouteHop` entries in input order, each by its own
option-table decode (`TracerouteHop.parse` returns the size reported by
`parse_options`); the first-decoded hop is the head of the result. -/
def hops_loop : Nat → List Nat → Except ParseErr (List Attrs × Nat × List Nat)
  | 0, s => .ok ([], 0, s)
  | n + 1, s =>
    match parse_options_fd [] s TracerouteHop_OPTIONS with
    | .error e => .error e
    | .ok (hop, hop_size, s') =>
      match hops_loop n s' with
      | .error e => .error e
      | .ok (hops, sz, s'') => .ok (hop :: hops, hop_size + sz, s'')

/-- `Traceroute.parse` (`traceroute.py` lines 49–74): run the record's
option table, read `hop_count: uint16`, decode that many hops, set
`pmtud`/`last_ditch`/`doubletree` to `None`, raise
`InvalidFormat("Inconsistent length in record header")` when more than
`self.length` bytes were consumed, otherwise skip to the declared
boundary and return `self.length`. -/
def Traceroute_parse (r : RawRecord) (s : List Nat) :
    Except ParseErr (RawRecord × Nat × List Nat) := do
  let (attrs1, options_size, s1) ← parse_options_fd r.attrs s Traceroute_OPTIONS
  let (hop_count, hop_count_size, s2) ← read_uint16 s1
  let (hops, hops_size, s3) ← hops_loop hop_count s2
  let bytes_read := options_size + hop_count_size + hops_size
  let attrs2 := set_attr (set_attr (set_attr attrs1
      "pmtud" .none) "last_ditch" .none) "doubletree" .none
  if bytes_read > r.length then
    .error (.invalidFormat "Inconsistent length in record header")
  else
    .ok ({ r with attrs := attrs2, hops := hops }, r.length,
         s3.drop (r.length - bytes_read))

/-- The `Parser` state of `base.py`'s iteration: the remaining input and
the running count of bytes read (`p.bytes_read`).  The class itself is
absent from the repository snapshot (only `base.py`, `list.py` and
`cycle.py` call it); its methods below are modelled from the spec. -/
structure Parser where
  data : List Nat
  bytes_read : Nat
deriving DecidableEq, Repr

/-- Modelled from the spec: `Parser.read_from_format` for the fixed
8-byte record header `>HHI` — zero bytes available where a header was
expected raises `EmptyRead` (§4.4 "On zero bytes read where a header was
expected, return EndOfStream"), a partial header raises a truncation
error (`IncompleteRead`). -/
def parser_read_header (p : Parser) :
    Except ParseErr ((Nat × Nat × Nat) × Parser) :=
  match p.data with
  | [] => .error .emptyRead
  | a :: b :: c :: d :: e :: f :: g :: h :: rest =>
      .ok ((be16 a b, be16 c d, be32 e f g h),
           ⟨rest, p.bytes_read + 8⟩)
  | _ => .error .incompleteRead

/-- Modelled from the spec: `Parser.safe_read(n)` consumes and returns
exactly `n` bytes (§4.4 "consuming and storing exactly `declared_length`
raw bytes"), failing with a truncation error on a short stream. -/
def parser_safe_read (n : Nat) (p : Parser) :
    Except ParseErr (List Nat × Parser) :=
  if n ≤ p.data.length then
    .ok (p.data.take n, ⟨p.data.drop n, p.bytes_read + n⟩)
  else .error .incompleteRead

/-- Modelled from the spec: `Parser.read_uint16`, big-endian (§4.2). -/
def parser_read_uint16 (p : Parser) : Except ParseErr (Nat × Parser) :=
  match p.data with
  | a :: b :: rest => .ok (be16 a b, ⟨rest, p.bytes_read + 2⟩)
  | [] => .error .emptyRead
  | _ => .error .incompleteRead

/-- Modelled from the spec: `Parser.read_uint32`, big-endian (§4.2). -/
def parser_read_uint32 (p : Parser) : Except ParseErr (Nat × Parser) :=
  match p.data with
  | a :: b :: c :: d :: rest => .ok (be32 a b c d, ⟨rest, p.bytes_read + 4⟩)
  | [] => .error .emptyRead
  | _ => .error .incompleteRead

/-- Modelled from the spec: `Parser.read_string` — bytes up to and
including the first zero byte, consuming `len + 1` (§4.2); a stream with
no terminator is truncated input. -/
def parser_read_string (p : Parser) : Except ParseErr (List Nat × Parser) :=
  let sb := p.data.takeWhile (fun b => b ≠ 0)
  if sb.length < p.data.length then
    .ok (sb, ⟨p.data.drop (sb.length + 1), p.bytes_read + sb.length + 1⟩)
  else .error .incompleteRead

/-- Modelled from the spec: `Parser.read_flags` returns the assembled
bitmask as an integer (`base.py` tests `flags == 0` and
`flags & (1 << position)`); the flag-byte algorithm is the one embedded
from `parsing.py`'s `read_flags` (§4.1). -/
def parser_read_flags (p : Parser) : Except ParseErr (Nat × Parser) :=
  match read_flags p.data with
  | .error e => .error e
  | .ok (flags, n, rest) => .ok (flags, ⟨rest, p.bytes_read + n⟩)

/-- An `Option` of the `Parser`-method iteration (`list.py`/`cycle.py`):
the parse function acts on the `Parser` state. -/
structure OptionP where
  attr_name : String
  parse_function : Parser → Except ParseErr (Value × Parser)
  ignore : Bool := false

/-- `Parser.read_uint32` as an option parse function. -/
def parser_read_uint32V (p : Parser) : Except ParseErr (Value × Parser) := do
  let (v, p') ← parser_read_uint32 p
  .ok (.nat v, p')

/-- `Parser.read_string` as an option parse function. -/
def parser_read_stringV (p : Parser) : Except ParseErr (Value × Parser) := do
  let (v, p') ← parser_read_string p
  .ok (.str v, p')

/-- The option loop of `WartsRecord.parse_options` (`base.py` lines
103–109): for each declared option, skip when
`flags & (1 << position)` is zero, otherwise run its parse function and
`setattr` the value unless ignored. -/
def wr_options_loop (opts : List OptionP) (position flags : Nat)
    (attrs : Attrs) (p : Parser) : Except ParseErr (Attrs × Parser) :=
  match opts with
  | [] => .ok (attrs, p)
  | option :: rest =>
    if flags &&& (1 <<< position) = 0 then
      wr_options_loop rest (position + 1) flags attrs p
    else
      match option.parse_function p with
      | .error e => .error e
      | .ok (value, p') =>
        wr_options_loop rest (position + 1) flags
          (if option.ignore then attrs else set_attr attrs option.attr_name value)
          p'

/-- `WartsRecord.parse_options` (`base.py` lines 96–117): read the flag
bitmask; return at once when it is zero; otherwise read the `uint16`
options length, fix `expected_bytes_read = p.bytes_read + options_length`,
run the option loop, raise `InvalidFormat("Inconsistent option length")`
when `p.bytes_read` overran the expectation, and `safe_read` the
remainder when it fell short. -/
def wr_parse_options (attrs : Attrs) (opts : List OptionP) (p : Parser) :
    Except ParseErr (Attrs × Parser) := do
  let (flags, p1) ← parser_read_flags p
  if flags = 0 then
    .ok (attrs, p1)
  else do
    let (options_length, p2) ← parser_read_uint16 p1
    let expected_bytes_read := p2.bytes_read + options_length
    let (attrs', p3) ← wr_options_loop opts 0 flags attrs p2
    if p3.bytes_read > expected_bytes_read then
      .error (.invalidFormat "Inconsistent option length")
    else if p3.bytes_read < expected_bytes_read then do
      let (_, p4) ← parser_safe_read (expected_bytes_read - p3.bytes_read) p3
      .ok (attrs', p4)
    else
      .ok (attrs', p3)

/-- `List.OPTIONS` (`list.py`). -/
def List_OPTIONS : List OptionP := [
  ⟨"description",  parser_read_stringV, false⟩,
  ⟨"monitor_name", parser_read_stringV, false⟩]

/-- `CycleStart.OPTIONS` (`cycle.py`), shared by `CycleDefinition`. -/
def CycleStart_OPTIONS : List OptionP := [
  ⟨"stop_time", parser_read_uint32V, false⟩,
  ⟨"hostname",  parser_read_stringV, false⟩]

/-- `List.parse` (`list.py`): `auto_id: u32`, `manual_id: u32`,
`name: string`, then the option table. -/
def List_parse (r : RawRecord) (p : Parser) :
    Except ParseErr (RawRecord × Parser) := do
  let (auto_id, p1) ← parser_read_uint32 p
  let (manual_id, p2) ← parser_read_uint32 p1
  let (name, p3) ← parser_read_string p2
  let attrs := set_attr (set_attr (set_attr r.attrs
      "auto_id" (.nat auto_id)) "manual_id" (.nat manual_id)) "name" (.str name)
  let (attrs', p4) ← wr_parse_options attrs List_OPTIONS p3
  .ok ({ r with attrs := attrs' }, p4)

/-- `CycleStart.parse` (`cycle.py`), also used for `CycleDefinition`:
`auto_id`, `list_id`, `manual_id`, `start_time` (all `u32`), then the
option table. -/
def CycleStart_parse (r : RawRecord) (p : Parser) :
    Except ParseErr (RawRecord × Parser) := do
  let (auto_id, p1) ← parser_read_uint32 p
  let (list_id, p2) ← parser_read_uint32 p1
  let (manual_id, p3) ← parser_read_uint32 p2
  let (start_time, p4) ← parser_read_uint32 p3
  let attrs := set_attr (set_attr (set_attr (set_attr r.attrs
      "auto_id" (.nat auto_id)) "list_id" (.nat list_id))
      "manual_id" (.nat manual_id)) "start_time" (.nat start_time)
  let (attrs', p5) ← wr_parse_options attrs CycleStart_OPTIONS p4
  .ok ({ r with attrs := attrs' }, p5)

/-- `CycleStop.parse` (`cycle.py`): `cycle_id` and `stop_time`, no
option table. -/
def CycleStop_parse (r : RawRecord) (p : Parser) :
    Except ParseErr (RawRecord × Parser) := do
  let (cycle_id, p1) ← parser_read_uint32 p
  let (stop_time, p2) ← parser_read_uint32 p1
  .ok ({ r with attrs := set_attr (set_attr r.attrs
        "cycle_id" (.nat cycle_id)) "stop_time" (.nat stop_time) }, p2)

/-- `UnknownRecord.parse` (`base.py` lines 124–126): store
`safe_read(self.length)` in `self.data`. -/
def UnknownRecord_parse (r : RawRecord) (p : Parser) :
    Except ParseErr (RawRecord × Parser) := do
  let (bs, p') ← parser_safe_read r.length p
  .ok ({ r with data := bs }, p')

/-- Adapter running `traceroute.py`'s file-descriptor-style
`Traceroute.parse` on the parser's remaining bytes.  (`traceroute.py`
belongs to the repository's fd-based iteration: its `parse(self, fd)`
signature does not match the zero-argument `record.parse()` call in
`base.py`; the adapter runs the same logic on the same underlying
stream.) -/
def Traceroute_sub (r : RawRecord) (p : Parser) :
    Except ParseErr (RawRecord × Parser) :=
  match Traceroute_parse r p.data with
  | .error e => .error e
  | .ok (r', size, rest) => .ok (r', ⟨rest, p.bytes_read + size⟩)

/-- The `WARTS_TYPES` registry populated by the
`register_warts_type` decorators: `0x0001 → List`,
`0x0002 → CycleStart`, `0x0003 → CycleDefinition` (same parse as
`CycleStart`), `0x0004 → CycleStop`, `0x0006 → Traceroute`. -/
def WARTS_TYPES (type_ : Nat) :
    Option (RawRecord → Parser → Except ParseErr (RawRecord × Parser)) :=
  if type_ = 0x0001 then some List_parse
  else if type_ = 0x0002 then some CycleStart_parse
  else if type_ = 0x0003 then some CycleStart_parse
  else if type_ = 0x0004 then some CycleStop_parse
  else if type_ = 0x0006 then some Traceroute_sub
  else Option.none

/-- `WartsRecord.parse` (`base.py` lines 40–78): read the `>HHI` header
(`EmptyRead` at a record boundary returns `None`), check
`magic == 0x1205`, fix `total_expected_length = p.bytes_read + length`,
dispatch on `WARTS_TYPES.get(type_, UnknownRecord)`, then raise
`InvalidFormat("Inconsistent length in record header")` when more than
the declared length was consumed and `safe_read` the remainder when
less was. -/
def warts_parse (s : List Nat) :
    Except ParseErr (Option (RawRecord × Parser)) :=
  match parser_read_header ⟨s, 0⟩ with
  | .error .emptyRead => .ok Option.none
  | .error e => .error e
  | .ok ((magic, type_, length), p) =>
    if magic ≠ 0x1205 then .error (.invalidFormat "Invalid magic header")
    else
      let total_expected_length := p.bytes_read + length
      let sub := (WARTS_TYPES type_).getD UnknownRecord_parse
      match sub { type := type_, length := length } p with
      | .error e => .error e
      | .ok (record, p') =>
        if p'.bytes_read > total_expected_length then
          .error (.invalidFormat "Inconsistent length in record header")
        else if p'.bytes_read < total_expected_length then
          match parser_safe_read (total_expected_length - p'.bytes_read) p' with
          | .error e => .error e
          | .ok (_, p'') => .ok (some (record, p''))
        else .ok (some (record, p'))

/-!
Helper lemmas about the embedded definitions, shared by the claim
theorems below.
-/
section FlagLemmas

theorem markBit_eq_add {f pos : Nat} (h : f < 2 ^ pos) :
    markBit f pos = f + 2 ^ pos := by
  unfold markBit
  rw [Nat.testBit_lt_two_pow h]
  simp

theorem and_one_shiftLeft_ne_zero {b n : Nat} :
    (b &&& (1 <<< n) ≠ 0) ↔ b.testBit n = true := by
  rw [Nat.one_shiftLeft, Nat.and_two_pow]
  cases h : b.testBit n <;> simp

theorem mark_byte_eq {b off : Nat} :
    ∀ (nb f : Nat), f < 2 ^ off →
      mark_byte f b off nb = f + (b % 2 ^ nb) * 2 ^ off := by
  intro nb
  induction nb with
  | zero => intro f hf; simp [mark_byte, Nat.mod_one]
  | succ n ih =>
    intro f hf
    have hstep : mark_byte f b off (n + 1)
        = (if b &&& (1 <<< n) ≠ 0
           then markBit (mark_byte f b off n) (off + n)
           else mark_byte f b off n) := by
      unfold mark_byte
      rw [List.range_succ, List.foldl_append]
      simp
    have hm : mark_byte f b off n = f + (b % 2 ^ n) * 2 ^ off := ih f hf
    have hmod : b % 2 ^ n < 2 ^ n := Nat.mod_lt _ (Nat.pos_pow_of_pos n (by norm_num))
    have hlt : f + (b % 2 ^ n) * 2 ^ off < 2 ^ (off + n) := by
      have h1 : f + (b % 2 ^ n) * 2 ^ off < (b % 2 ^ n + 1) * 2 ^ off := by
        calc f + (b % 2 ^ n) * 2 ^ off < 2 ^ off + (b % 2 ^ n) * 2 ^ off := by omega
        _ = (b % 2 ^ n + 1) * 2 ^ off := by ring
      have h2 : (b % 2 ^ n + 1) * 2 ^ off ≤ 2 ^ n * 2 ^ off :=
        Nat.mul_le_mul_right _ (by omega)
      calc f + (b % 2 ^ n) * 2 ^ off < 2 ^ n * 2 ^ off := lt_of_lt_of_le h1 h2
      _ = 2 ^ (off + n) := by rw [← pow_add]; ring_nf
    have hdecomp : b % 2 ^ (n + 1) = b % 2 ^ n + 2 ^ n * (b / 2 ^ n % 2) :=
      Nat.mod_pow_succ
    rw [hstep]
    by_cases hbit : b &&& (1 <<< n) ≠ 0
    · have htb : b.testBit n = true := and_one_shiftLeft_ne_zero.mp hbit
      have hdiv : b / 2 ^ n % 2 = 1 := by
        have := Nat.testBit_to_div_mod (x := b) (i := n)
        rw [htb] at this
        exact of_decide_eq_true this.symm
      rw [if_pos hbit, hm, markBit_eq_add hlt, hdecomp, hdiv, pow_add]
      ring
    · have htb : b.testBit n = false := by
        by_contra hne
        exact hbit (and_one_shiftLeft_ne_zero.mpr (by simpa using hne))
      have hdiv : b / 2 ^ n % 2 = 0 := by
        have := Nat.testBit_to_div_mod (x := b) (i := n)
        rw [htb] at this
        have h1 : ¬ (b / 2 ^ n % 2 = 1) := by
          intro hc
          rw [hc] at this
          simp at this
        omega
      rw [if_neg hbit, hm, hdecomp, hdiv]
      ring
end FlagLemmas

theorem assemble_flags_go_eq :
    ∀ (bs : List Nat) (f off : Nat), f < 2 ^ off →
      assemble_flags_go f off bs = f + flags_spec bs * 2 ^ off := by
  intro bs
  induction bs with
  | nil => intro f off hf; simp [assemble_flags_go, flags_spec]
  | cons b rest ih =>
    intro f off hf
    cases rest with
    | nil =>
      simp only [assemble_flags_go, flags_spec]
      rw [mark_byte_eq 8 f hf]
      norm_num
    | cons c rest' =>
      simp only [assemble_flags_go, flags_spec]
      rw [mark_byte_eq 7 f hf]
      have hlt : f + (b % 2 ^ 7) * 2 ^ off < 2 ^ (off + 7) := by
        have hmod : b % 2 ^ 7 < 2 ^ 7 := Nat.mod_lt _ (by norm_num)
        have h1 : f + (b % 2 ^ 7) * 2 ^ off < (b % 2 ^ 7 + 1) * 2 ^ off := by
          calc f + (b % 2 ^ 7) * 2 ^ off
              < 2 ^ off + (b % 2 ^ 7) * 2 ^ off := by omega
          _ = (b % 2 ^ 7 + 1) * 2 ^ off := by ring
        have h2 : (b % 2 ^ 7 + 1) * 2 ^ off ≤ 2 ^ 7 * 2 ^ off :=
          Nat.mul_le_mul_right _ (by omega)
        calc f + (b % 2 ^ 7) * 2 ^ off < 2 ^ 7 * 2 ^ off := lt_of_lt_of_le h1 h2
        _ = 2 ^ (off + 7) := by rw [pow_add]; ring
      rw [ih _ _ hlt, pow_add]
      norm_num
      ring

theorem read_flag_bytes_split {pref : List Nat} {last : Nat} {rest : List Nat}
    (hc : ∀ b ∈ pref, b &&& 0x80 ≠ 0) (hl : last &&& 0x80 = 0) :
    read_flag_bytes (pref ++ last :: rest)
      = .ok (pref ++ [last], pref.length + 1, rest) := by
  induction pref with
  | nil => simp [read_flag_bytes, hl]
  | cons b pref' ih =>
    have hb : b &&& 0x80 ≠ 0 := hc b (List.mem_cons_self b pref')
    have ih' := ih (fun x hx => hc x (List.mem_cons_of_mem b hx))
    simp only [List.cons_append, read_flag_bytes, if_neg hb, List.append_eq]
    rw [ih']
    simp

theorem read_flag_bytes_all_continuation {s : List Nat}
    (hc : ∀ b ∈ s, b &&& 0x80 ≠ 0) :
    read_flag_bytes s = .error (.parseError "Not enough data in file") := by
  induction s with
  | nil => simp [read_flag_bytes]
  | cons b rest ih =>
    have hb : b &&& 0x80 ≠ 0 := hc b (List.mem_cons_self b rest)
    have ih' := ih (fun x hx => hc x (List.mem_cons_of_mem b hx))
    simp [read_flag_bytes, if_neg hb, ih']

theorem read_flags_split {pref : List Nat} {last : Nat} {rest : List Nat}
    (hc : ∀ b ∈ pref, b &&& 0x80 ≠ 0) (hl : last &&& 0x80 = 0) :
    read_flags (pref ++ last :: rest)
      = .ok (flags_spec (pref ++ [last]), pref.length + 1, rest) := by
  unfold read_flags
  rw [read_flag_bytes_split hc hl]
  have := assemble_flags_go_eq (pref ++ [last]) 0 0 (by norm_num)
  simp at this
  simp [this]

theorem icmpext_loop_ge_fuel :
    ∀ (fuel total_length bytes_read : Nat) (s : List Nat)
      (exts : List IcmpExtension) (br : Nat) (s' : List Nat),
      total_length - bytes_read ≤ fuel →
      icmpext_loop total_length bytes_read s = .ok (exts, br, s') →
      total_length ≤ br := by
  intro fuel
  induction fuel with
  | zero =>
    intro t b s exts br s' hf h
    rw [icmpext_loop] at h
    rw [dif_neg (by omega)] at h
    simp only [Except.ok.injEq, Prod.mk.injEq] at h
    omega
  | succ n ih =>
    intro t b s exts br s' hf h
    rw [icmpext_loop] at h
    by_cases hlt : b < t
    · rw [dif_pos hlt] at h
      cases h16 : read_uint16 s with
      | error e => rw [h16] at h; simp at h
      | ok v =>
        obtain ⟨el, hsz, s1⟩ := v
        rw [h16] at h
        dsimp only at h
        match s1 with
        | [] => simp at h
        | [ec] => simp at h
        | ec :: et :: s2 =>
          dsimp only at h
          cases hbd : read_bytes_fd el s2 with
          | error e => rw [hbd] at h; simp at h
          | ok w =>
            obtain ⟨ed, dsz, s3⟩ := w
            rw [hbd] at h
            dsimp only at h
            cases hrec : icmpext_loop t (b + (hsz + 2) + dsz) s3 with
            | error e => rw [hrec] at h; simp at h
            | ok u =>
              obtain ⟨exts2, br2, s4⟩ := u
              rw [hrec] at h
              simp only [Except.ok.injEq, Prod.mk.injEq] at h
              obtain ⟨h1, h2, h3⟩ := h
              have hge := ih t _ s3 exts2 br2 s4 (by omega) hrec
              omega
    · rw [dif_neg hlt] at h
      simp only [Except.ok.injEq, Prod.mk.injEq] at h
      omega

theorem icmpext_loop_ge {total_length bytes_read : Nat} {s : List Nat}
    {exts : List IcmpExtension} {br : Nat} {s' : List Nat}
    (h : icmpext_loop total_length bytes_read s = .ok (exts, br, s')) :
    total_length ≤ br :=
  icmpext_loop_ge_fuel (total_length - bytes_read) total_length bytes_read s
    exts br s' (Nat.le_refl _) h

theorem hops_loop_length :
    ∀ (n : Nat) (s : List Nat) (hops : List Attrs) (sz : Nat) (s' : List Nat),
      hops_loop n s = .ok (hops, sz, s') → hops.length = n := by
  intro n
  induction n with
  | zero =>
    intro s hops sz s' h
    simp only [hops_loop, Except.ok.injEq, Prod.mk.injEq] at h
    obtain ⟨h1, h2, h3⟩ := h
    simp [← h1]
  | succ m ih =>
    intro s hops sz s' h
    rw [hops_loop] at h
    cases hpo : parse_options_fd [] s TracerouteHop_OPTIONS with
    | error e => rw [hpo] at h; simp at h
    | ok v =>
      obtain ⟨hop, hop_size, s1⟩ := v
      rw [hpo] at h
      dsimp only at h
      cases hrec : hops_loop m s1 with
      | error e => rw [hrec] at h; simp at h
      | ok u =>
        obtain ⟨hops2, sz2, s2⟩ := u
        rw [hrec] at h
        dsimp only at h
        simp only [Except.ok.injEq, Prod.mk.injEq] at h
        obtain ⟨h1, h2, h3⟩ := h
        rw [← h1]
        simp [ih s1 hops2 sz2 s2 hrec]

theorem takeWhile_take_of_mem_zero :
    ∀ (s : List Nat) (n : Nat), 0 ∈ s.take n →
      (s.take n).takeWhile (fun b => b ≠ 0) = s.takeWhile (fun b => b ≠ 0) := by
  intro s
  induction s with
  | nil => intro n h; simp at h
  | cons b rest ih =>
    intro n h
    cases n with
    | zero => simp at h
    | succ m =>
      simp only [List.take_succ_cons] at h ⊢
      by_cases hb : b = 0
      · subst hb
        simp [List.takeWhile_cons]
      · have hmem : 0 ∈ rest.take m := by
          rcases List.mem_cons.mp h with h0 | h0
          · exact absurd h0.symm hb
          · exact h0
        simp only [List.takeWhile_cons]
        rw [ih m hmem]

theorem read_uint16_size {s : List Nat} {v n : Nat} {r : List Nat}
    (h : read_uint16 s = .ok (v, n, r)) : n = 2 := by
  match s with
  | [] => simp [read_uint16] at h
  | [a] => simp [read_uint16] at h
  | a :: b :: rest =>
    simp only [read_uint16, Except.ok.injEq, Prod.mk.injEq] at h
    omega

/-- C1: the claim's address contract fails on the code.  Decoding length
byte 4, type byte 1 and bytes `[192, 0, 2, 1]` returns the raw bytes —
`read_address` performs no conversion to canonical text form and
maintains no back-reference table (it does not even take one as an
argument) — and a subsequent length-0 entry returns the empty bytes
object after reading the `uint32` reference id, instead of a table
entry or an `InvalidBackReference` failure. -/
theorem C1_read_address_unconverted :
    read_address [4, 1, 192, 0, 2, 1] = .ok (.bytes [192, 0, 2, 1], 6, [])
    ∧ read_address [0, 0, 0, 0, 0] = .ok (.bytes [], 5, []) :=
  ⟨rfl, rfl⟩

/-- C10: for every positive length byte and every value of the following
type byte, `read_address` succeeds without validating or using the type
byte, consumes exactly `length + 2` bytes, and returns the `length`
address bytes unchanged. -/
theorem C10_read_address_raw (length type_ : Nat) (rest : List Nat)
    (hpos : 0 < length) (hlen : length ≤ rest.length) :
    read_address (length :: type_ :: rest)
      = .ok (.bytes (rest.take length), length + 2, rest.drop length) := by
  simp only [read_address, read_uint8, read_bytes_fd, bind, Except.bind,
    if_pos hpos, if_pos hlen]
  norm_num
  omega

/-- Witness for C10 at length byte 2 and type byte 7 (neither IPv4 nor
IPv6). -/
theorem C10_read_address_raw_witness :
    read_address [2, 7, 10, 20, 30] = .ok (.bytes [10, 20], 4, [30]) := by
  have h := C10_read_address_raw 2 7 [10, 20, 30] (by norm_num) (by norm_num)
  simpa using h

/-- C5: `read_flags` consumes input bytes up to and including the first
byte whose high bit is 0; the assembled bitmask is the `flags_spec`
closed form (non-final bytes contribute their low 7 bits at offsets
0, 7, 14, …; the final byte contributes all 8 bits at its offset); the
input `[0x81, 0x02]` assembles to 257 consuming 2 bytes; and a cursor
exhausted before a terminating byte is a decode error. -/
theorem C5_read_flags_contract :
    (∀ (pref : List Nat) (last : Nat) (rest : List Nat),
        (∀ b ∈ pref, b &&& 0x80 ≠ 0) → last &&& 0x80 = 0 →
        read_flags (pref ++ last :: rest)
          = .ok (flags_spec (pref ++ [last]), pref.length + 1, rest))
    ∧ read_flags [0x81, 0x02] = .ok (257, 2, [])
    ∧ (∀ s : List Nat, (∀ b ∈ s, b &&& 0x80 ≠ 0) →
        read_flags s = .error (.parseError "Not enough data in file")) := by
  refine ⟨fun pref last rest hc hl => read_flags_split hc hl, by rfl, ?_⟩
  intro s hc
  unfold read_flags
  rw [read_flag_bytes_all_continuation hc]

/-- Witness for C5: the general statement instantiated at the spec's
example (`[0x81, 0x02]`, one continuation byte) and the error case at a
one-byte cursor with the continuation bit set. -/
theorem C5_read_flags_contract_witness :
    read_flags ([0x81] ++ 0x02 :: []) = .ok (flags_spec ([0x81] ++ [0x02]), 2, [])
    ∧ read_flags [0x81] = .error (.parseError "Not enough data in file") :=
  ⟨C5_read_flags_contract.1 [0x81] 0x02 [] (by decide) (by decide),
   C5_read_flags_contract.2.2 [0x81] (by decide)⟩

/-- C8 counterexample: on a stream whose first zero byte sits beyond the
4096-byte peek window (4097 `'a'` bytes then a zero), `read_string`
returns only the first 4096 bytes and reports 4097 bytes consumed — not
the 4097 bytes preceding the first zero byte and 4097 + 1 consumed that
the claim requires for every input stream. -/
theorem C8_read_string_counterexample :
    read_string (List.replicate 4097 97 ++ [0])
      = .ok (.str (List.replicate 4096 97), 4097, [0])
    ∧ (List.replicate 4097 97 ++ [0]).takeWhile (fun b => b ≠ 0)
      = List.replicate 4097 97
    ∧ Value.str (List.replicate 4096 97) ≠ Value.str (List.replicate 4097 97)
    ∧ (4097 : Nat) ≠ 4097 + 1 := by
  have htake : (List.replicate 4097 97 ++ [(0 : Nat)]).take 4096
      = List.replicate 4096 97 := by
    rw [show (4097 : Nat) = 4096 + 1 from rfl, List.replicate_add,
      List.append_assoc]
    exact List.take_left' (List.length_replicate 4096 97)
  have htw : (List.replicate 4096 (97 : Nat)).takeWhile (fun b => b ≠ 0)
      = List.replicate 4096 97 := by
    rw [List.takeWhile_replicate]
    norm_num
  have hlen : ((List.replicate 4096 (97 : Nat)).takeWhile
      (fun b => b ≠ 0)).length = 4096 := by
    rw [htw, List.length_replicate]
  have hdrop : (List.replicate 4097 (97 : Nat) ++ [0]).drop 4097 = [0] :=
    List.drop_left' (List.length_replicate 4097 97)
  refine ⟨?_, ?_, ?_, by omega⟩
  · unfold read_string
    simp only [htake, htw, List.length_replicate]
    rw [hdrop]
  · rw [List.takeWhile_append_of_pos]
    · have h0 : List.takeWhile (fun b => decide (b ≠ 0)) [(0 : Nat)] = [] := rfl
      rw [h0, List.append_nil]
    · intro a ha
      have h97 := List.eq_of_mem_replicate ha
      subst h97
      norm_num
  · intro h
    have h2 : List.replicate 4096 (97 : Nat) = List.replicate 4097 97 := by
      injection h
    have h3 := congrArg List.length h2
    rw [List.length_replicate, List.length_replicate] at h3
    omega

/-- C8 amended: for every input stream whose first zero byte lies within
the first 4096 bytes (the code's peek window — the source notes "Assume
that strings are less than 4 KB"), `read_string` returns the UTF-8
decoding of the bytes preceding the first zero byte and consumes exactly
those bytes plus the terminating zero byte. -/
theorem C8_read_string_within_window (s : List Nat) (h : 0 ∈ s.take 4096) :
    read_string s
      = .ok (.str (s.takeWhile (fun b => b ≠ 0)),
             (s.takeWhile (fun b => b ≠ 0)).length + 1,
             s.drop ((s.takeWhile (fun b => b ≠ 0)).length + 1)) := by
  unfold read_string
  dsimp only
  rw [takeWhile_take_of_mem_zero s 4096 h]

/-- Witness for C8 on the stream `"ab\x00" ++ [5]`. -/
theorem C8_read_string_within_window_witness :
    0 ∈ ([97, 98, 0, 5] : List Nat).take 4096
    ∧ read_string [97, 98, 0, 5] = .ok (.str [97, 98], 3, [5]) :=
  ⟨by decide, by
    have h := C8_read_string_within_window [97, 98, 0, 5] (by decide)
    simpa using h⟩

/-- C2: the claim fails on the code, and the code contradicts its own
docstring ("The attribute is set to None when the option is not
present").  After an option-table decode over an all-zero bitmask, the
decode succeeds but no attribute of the declared options was bound at
all: the attribute dictionary is left empty, so the absent option's
attribute is undefined rather than explicitly bound to `None`.  Both
decoder variants behave this way. -/
theorem C2_absent_options_left_unbound :
    parse_options_fd [] [0x00] [⟨"description", read_stringV, false⟩]
      = .ok ([], 1, [])
    ∧ wr_parse_options [] List_OPTIONS ⟨[0x00], 8⟩ = .ok ([], ⟨[], 9⟩)
    ∧ List.lookup "description" ([] : Attrs) = Option.none :=
  ⟨rfl, rfl, rfl⟩

/-- C4: calling `WartsRecord.parse` with zero bytes available at the
header read returns the end-of-stream value `None` (not an error), while
a stream holding at least one but fewer than the 8 header bytes raises
a truncation error and yields no record. -/
theorem C4_header_eof_vs_truncation :
    warts_parse [] = .ok Option.none
    ∧ (∀ s : List Nat, s ≠ [] → s.length < 8 →
        warts_parse s = .error .incompleteRead) := by
  refine ⟨rfl, ?_⟩
  intro s hne hlen
  have hhdr : parser_read_header ⟨s, 0⟩ = .error .incompleteRead := by
    rcases s with _ | ⟨a, _ | ⟨b, _ | ⟨c, _ | ⟨d, _ | ⟨e, _ | ⟨f, _ | ⟨g, _ | ⟨h8, rest⟩⟩⟩⟩⟩⟩⟩⟩
    · exact absurd rfl hne
    · rfl
    · rfl
    · rfl
    · rfl
    · rfl
    · rfl
    · rfl
    · exfalso
      simp at hlen
      omega
  unfold warts_parse
  rw [hhdr]

/-- Witness for C4 at the one-byte stream `[0x12]`. -/
theorem C4_header_eof_vs_truncation_witness :
    warts_parse [0x12] = .error .incompleteRead :=
  C4_header_eof_vs_truncation.2 [0x12] (by decide) (by decide)

/-- C6: a record whose header carries the valid magic and a type code
absent from the `WARTS_TYPES` registry consumes exactly
`declared_length` payload bytes, returns an `UnknownRecord` carrying the
type code, the length and the raw payload, and raises no error. -/
theorem C6_unknown_record_skipped (t1 t2 l1 l2 l3 l4 : Nat)
    (payload : List Nat)
    (hreg : WARTS_TYPES (be16 t1 t2) = Option.none)
    (hlen : be32 l1 l2 l3 l4 ≤ payload.length) :
    warts_parse (0x12 :: 0x05 :: t1 :: t2 :: l1 :: l2 :: l3 :: l4 :: payload)
      = .ok (some
          ({ type := be16 t1 t2, length := be32 l1 l2 l3 l4,
             attrs := [], data := payload.take (be32 l1 l2 l3 l4),
             hops := [] },
           ⟨payload.drop (be32 l1 l2 l3 l4), 8 + be32 l1 l2 l3 l4⟩)) := by
  unfold warts_parse parser_read_header
  dsimp only
  have hmagic : ¬ (be16 0x12 0x05 ≠ 0x1205) := by norm_num [be16]
  rw [if_neg hmagic, hreg]
  dsimp only [Option.getD]
  unfold UnknownRecord_parse parser_safe_read
  dsimp only
  rw [if_pos hlen]
  dsimp only [bind, Except.bind]
  rw [if_neg (by omega), if_neg (by omega)]

/-- Witness for C6: unregistered type 0x0042 with declared length 2 and
a 3-byte stream tail — exactly 2 payload bytes are stored and the third
remains in the stream. -/
theorem C6_unknown_record_skipped_witness :
    warts_parse [0x12, 0x05, 0, 0x42, 0, 0, 0, 2, 9, 9, 7]
      = .ok (some
          ({ type := 66, length := 2, attrs := [], data := [9, 9],
             hops := [] }, ⟨[7], 10⟩)) := by
  have h := C6_unknown_record_skipped 0 0x42 0 0 0 2 [9, 9, 7]
    (by rfl) (by norm_num [be32])
  simpa [be16, be32] using h

/-- C9: `read_icmpext` reads a uint16 total-byte budget and entries of
shape `{ext_length, ext_class, ext_type, ext_data}` while the bytes
consumed are below the budget; entries that end up exceeding the budget
raise the inconsistent-length error, and otherwise the entries are
returned in input order with exactly `2 + budget` bytes consumed. -/
theorem C9_read_icmpext_budget (s : List Nat) (budget lsz : Nat)
    (s1 : List Nat) (exts : List IcmpExtension) (br : Nat) (s2 : List Nat)
    (h16 : read_uint16 s = .ok (budget, lsz, s1))
    (hloop : icmpext_loop budget 0 s1 = .ok (exts, br, s2)) :
    (budget < br →
      read_icmpext s
        = .error (.invalidFormat "Inconsistent ICMP extension length"))
    ∧ (br ≤ budget →
      br = budget ∧ read_icmpext s = .ok (.icmpexts exts, 2 + budget, s2)) := by
  have hlsz : lsz = 2 := read_uint16_size h16
  subst hlsz
  constructor
  · intro hover
    unfold read_icmpext
    rw [h16]
    dsimp only [bind, Except.bind]
    rw [hloop]
    dsimp only
    rw [if_pos hover]
  · intro hle
    have hge := icmpext_loop_ge hloop
    have heq : br = budget := le_antisymm hle hge
    refine ⟨heq, ?_⟩
    unfold read_icmpext
    rw [h16]
    dsimp only [bind, Except.bind]
    rw [hloop]
    dsimp only
    rw [if_neg (by omega), heq]

/-- Witness for C9: a budget of 6 holding one entry of 2 data bytes
decodes to exactly that entry with 8 bytes consumed, while a budget of 3
overrun by a 4-byte entry raises the inconsistent-length error. -/
theorem C9_read_icmpext_budget_witness :
    read_icmpext [0, 6, 0, 2, 9, 8, 5, 5]
      = .ok (.icmpexts [⟨9, 8, [5, 5]⟩], 2 + 6, [])
    ∧ read_icmpext [0, 3, 0, 0, 1, 2]
      = .error (.invalidFormat "Inconsistent ICMP extension length") := by
  have hstop6 : icmpext_loop 6 6 [] = .ok ([], 6, []) := by
    rw [icmpext_loop, dif_neg (by omega)]
  have hloop6 : icmpext_loop 6 0 [0, 2, 9, 8, 5, 5]
      = .ok ([⟨9, 8, [5, 5]⟩], 6, []) := by
    rw [icmpext_loop, dif_pos (by omega)]
    have h1 : read_uint16 [0, 2, 9, 8, 5, 5] = .ok (2, 2, [9, 8, 5, 5]) := rfl
    rw [h1]
    dsimp only
    have h2 : read_bytes_fd 2 [5, 5] = .ok ([5, 5], 2, []) := rfl
    rw [h2]
    dsimp only
    simp only [show (0 + (2 + 2) + 2 : Nat) = 6 from rfl, hstop6]
  have hstop4 : icmpext_loop 3 4 [] = .ok ([], 4, []) := by
    rw [icmpext_loop, dif_neg (by omega)]
  have hloop3 : icmpext_loop 3 0 [0, 0, 1, 2] = .ok ([⟨1, 2, []⟩], 4, []) := by
    rw [icmpext_loop, dif_pos (by omega)]
    have h1 : read_uint16 [0, 0, 1, 2] = .ok (0, 2, [1, 2]) := rfl
    rw [h1]
    dsimp only
    have h2 : read_bytes_fd 0 [] = .ok ([], 0, []) := rfl
    rw [h2]
    dsimp only
    simp only [show (0 + (2 + 2) + 0 : Nat) = 4 from rfl, hstop4]
  refine ⟨?_, ?_⟩
  · exact ((C9_read_icmpext_budget [0, 6, 0, 2, 9, 8, 5, 5] 6 2
      [0, 2, 9, 8, 5, 5] [⟨9, 8, [5, 5]⟩] 6 [] rfl hloop6).2
      (by omega)).2
  · exact (C9_read_icmpext_budget [0, 3, 0, 0, 1, 2] 3 2
      [0, 0, 1, 2] [⟨1, 2, []⟩] 4 [] rfl hloop3).1 (by omega)

/-- C3: an option-table decode whose parse functions consume more than
the declared uint16 options length raises the inconsistent-option-length
error; a type-specific record decode that consumes more than the
header's declared length makes the dispatcher raise the
inconsistent-record-length error; and in either place a shortfall is
skipped as opaque bytes so the cursor ends exactly at the declared
boundary. -/
theorem C3_declared_length_accounting :
    (∀ (attrs : Attrs) (s : List Nat) (opts : List OptionF)
        (flags flags_size : Nat) (s1 : List Nat)
        (options_length ols : Nat) (s2 : List Nat)
        (attrs2 : Attrs) (total : Nat) (s3 : List Nat),
      read_flags s = .ok (flags, flags_size, s1) →
      flags ≠ 0 →
      read_uint16 s1 = .ok (options_length, ols, s2) →
      options_loop opts 0 flags attrs 0 s2 = .ok (attrs2, total, s3) →
      (options_length < total →
        parse_options_fd attrs s opts
          = .error (.invalidFormat "Inconsistent option length"))
      ∧ (total ≤ options_length →
        parse_options_fd attrs s opts
          = .ok (attrs2, flags_size + ols + options_length,
                 s3.drop (options_length - total))))
    ∧ (∀ (s : List Nat) (type_ length : Nat) (p1 : Parser)
         (record : RawRecord) (p2 : Parser),
      parser_read_header ⟨s, 0⟩ = .ok ((0x1205, type_, length), p1) →
      (WARTS_TYPES type_).getD UnknownRecord_parse
          { type := type_, length := length } p1 = .ok (record, p2) →
      (p1.bytes_read + length < p2.bytes_read →
        warts_parse s
          = .error (.invalidFormat "Inconsistent length in record header"))
      ∧ (p2.bytes_read < p1.bytes_read + length →
         p1.bytes_read + length - p2.bytes_read ≤ p2.data.length →
        warts_parse s
          = .ok (some (record,
              ⟨p2.data.drop (p1.bytes_read + length - p2.bytes_read),
               p1.bytes_read + length⟩)))) := by
  constructor
  · intro attrs s opts flags fs s1 L ols s2 attrs2 total s3 hfl hne h16 hloop
    constructor
    · intro hover
      unfold parse_options_fd
      rw [hfl]
      dsimp only [bind, Except.bind]
      rw [if_neg hne, h16]
      dsimp only
      rw [hloop]
      dsimp only
      rw [if_pos hover]
    · intro hle
      unfold parse_options_fd
      rw [hfl]
      dsimp only [bind, Except.bind]
      rw [if_neg hne, h16]
      dsimp only
      rw [hloop]
      dsimp only
      rw [if_neg (by omega)]
  · intro s type_ length p1 record p2 hhdr hsub
    constructor
    · intro hover
      unfold warts_parse
      rw [hhdr]
      dsimp only
      rw [if_neg (by norm_num), hsub]
      dsimp only
      rw [if_pos (by omega)]
    · intro hshort hdata
      unfold warts_parse
      rw [hhdr]
      dsimp only
      rw [if_neg (by norm_num), hsub]
      dsimp only
      rw [if_neg (by omega), if_pos hshort]
      unfold parser_safe_read
      rw [if_pos hdata]
      dsimp only
      have harith : p2.bytes_read + (p1.bytes_read + length - p2.bytes_read)
          = p1.bytes_read + length := by omega
      rw [harith]

/-- Witness for C3: an option table overrunning a declared length of 2
with a 4-byte read, the same table falling 2 bytes short of a declared
length of 6, a CycleStop record overrunning its declared length of 4,
and one falling 2 bytes short of its declared length of 10. -/
theorem C3_declared_length_accounting_witness :
    parse_options_fd [] [1, 0, 2, 9, 9, 9, 9]
        [⟨"user_id", read_uint32V, false⟩]
      = .error (.invalidFormat "Inconsistent option length")
    ∧ parse_options_fd [] [1, 0, 6, 9, 9, 9, 9, 8, 8, 7]
        [⟨"user_id", read_uint32V, false⟩]
      = .ok ([("user_id", .nat (be32 9 9 9 9))], 9, [7])
    ∧ warts_parse [0x12, 0x05, 0, 4, 0, 0, 0, 4, 1, 2, 3, 4, 5, 6, 7, 8]
      = .error (.invalidFormat "Inconsistent length in record header")
    ∧ warts_parse [0x12, 0x05, 0, 4, 0, 0, 0, 10, 1, 2, 3, 4, 5, 6, 7, 8, 7, 7]
      = .ok (some
          ({ type := 4, length := 10,
             attrs := [("stop_time", .nat (be32 5 6 7 8)),
                       ("cycle_id", .nat (be32 1 2 3 4))] }, ⟨[], 18⟩)) := by
  refine ⟨?_, ?_, ?_, ?_⟩
  · exact (C3_declared_length_accounting.1 [] [1, 0, 2, 9, 9, 9, 9]
      [⟨"user_id", read_uint32V, false⟩] 1 1 [0, 2, 9, 9, 9, 9] 2 2
      [9, 9, 9, 9] [("user_id", .nat (be32 9 9 9 9))] 4 [] rfl (by norm_num)
      rfl rfl).1 (by omega)
  · have h := (C3_declared_length_accounting.1 [] [1, 0, 6, 9, 9, 9, 9, 8, 8, 7]
      [⟨"user_id", read_uint32V, false⟩] 1 1
      [0, 6, 9, 9, 9, 9, 8, 8, 7] 6 2 [9, 9, 9, 9, 8, 8, 7]
      [("user_id", .nat (be32 9 9 9 9))] 4 [8, 8, 7] rfl (by norm_num)
      rfl rfl).2 (by omega)
    simpa using h
  · exact (C3_declared_length_accounting.2
      [0x12, 0x05, 0, 4, 0, 0, 0, 4, 1, 2, 3, 4, 5, 6, 7, 8]
      4 4 ⟨[1, 2, 3, 4, 5, 6, 7, 8], 8⟩
      { type := 4, length := 4,
        attrs := [("stop_time", .nat (be32 5 6 7 8)),
                  ("cycle_id", .nat (be32 1 2 3 4))] }
      ⟨[], 16⟩ rfl rfl).1 (by norm_num)
  · have h := (C3_declared_length_accounting.2
      [0x12, 0x05, 0, 4, 0, 0, 0, 10, 1, 2, 3, 4, 5, 6, 7, 8, 7, 7]
      4 10
      ⟨[1, 2, 3, 4, 5, 6, 7, 8, 7, 7], 8⟩
      { type := 4, length := 10,
        attrs := [("stop_time", .nat (be32 5 6 7 8)),
                  ("cycle_id", .nat (be32 1 2 3 4))] }
      ⟨[7, 7], 16⟩ rfl rfl).2 (by norm_num) (by norm_num)
    simpa using h

/-- C7: `Traceroute.parse` first decodes its own option table, then
reads a `uint16` hop count, then decodes exactly `hop_count`
`TracerouteHop` entries — each via its own option-table decode over
`TracerouteHop_OPTIONS` (see `hops_loop`) — in input order with the
first-decoded hop at index 0; a hop count of 0 yields an empty hop
sequence and is not a decode failure. -/
theorem C7_traceroute_decode_sequence (r : RawRecord) (s : List Nat)
    (attrs1 : Attrs) (options_size : Nat) (s1 : List Nat)
    (hop_count hcs : Nat) (s2 : List Nat)
    (hops : List Attrs) (hops_size : Nat) (s3 : List Nat)
    (hopts : parse_options_fd r.attrs s Traceroute_OPTIONS
      = .ok (attrs1, options_size, s1))
    (hhc : read_uint16 s1 = .ok (hop_count, hcs, s2))
    (hhops : hops_loop hop_count s2 = .ok (hops, hops_size, s3))
    (hfit : options_size + hcs + hops_size ≤ r.length) :
    Traceroute_parse r s
      = .ok ({ r with
               attrs := set_attr (set_attr (set_attr attrs1 "pmtud" .none)
                   "last_ditch" .none) "doubletree" .none,
               hops := hops }, r.length,
             s3.drop (r.length - (options_size + hcs + hops_size)))
    ∧ hops.length = hop_count
    ∧ (hop_count = 0 → hops = [] ∧ hops_size = 0 ∧ s3 = s2)
    ∧ (0 < hop_count →
        ∃ (h : Attrs) (t : List Attrs) (n1 : Nat) (s' : List Nat),
          hops = h :: t
          ∧ parse_options_fd [] s2 TracerouteHop_OPTIONS = .ok (h, n1, s')) := by
  refine ⟨?_, hops_loop_length hop_count s2 hops hops_size s3 hhops, ?_, ?_⟩
  · unfold Traceroute_parse
    rw [hopts]
    dsimp only [bind, Except.bind]
    rw [hhc]
    dsimp only
    rw [hhops]
    dsimp only
    rw [if_neg (by omega)]
  · intro h0
    subst h0
    simp only [hops_loop, Except.ok.injEq, Prod.mk.injEq] at hhops
    exact ⟨hhops.1.symm, hhops.2.1.symm, hhops.2.2.symm⟩
  · intro hpos
    cases hop_count with
    | zero => omega
    | succ m =>
      rw [hops_loop] at hhops
      cases hpo : parse_options_fd [] s2 TracerouteHop_OPTIONS with
      | error e => rw [hpo] at hhops; simp at hhops
      | ok v =>
        obtain ⟨hop, hop_size, s'⟩ := v
        rw [hpo] at hhops
        dsimp only at hhops
        cases hrec : hops_loop m s' with
        | error e => rw [hrec] at hhops; simp at hhops
        | ok u =>
          obtain ⟨hops2, sz2, s''⟩ := u
          rw [hrec] at hhops
          dsimp only at hhops
          simp only [Except.ok.injEq, Prod.mk.injEq] at hhops
          exact ⟨hop, hops2, hop_size, s', hhops.1.symm, rfl⟩

/-- Witness for C7: a traceroute record of declared length 3 whose
option bitmask is empty and whose hop count is 0 decodes successfully to
an empty hop sequence. -/
theorem C7_traceroute_decode_sequence_witness :
    Traceroute_parse { length := 3 } [0x00, 0x00, 0x00]
      = .ok ({ length := 3,
               attrs := set_attr (set_attr (set_attr [] "pmtud" .none)
                   "last_ditch" .none) "doubletree" .none,
               hops := [] }, 3, [])
    ∧ ([] : List Attrs).length = 0 := by
  have h := C7_traceroute_decode_sequence { length := 3 } [0, 0, 0] [] 1
      [0, 0] 0 2 [] [] 0 [] rfl rfl rfl (by norm_num)
  exact ⟨by simpa using h.1, h.2.1⟩
